import Mathlib

/-!
Verification development for the Jira-to-Vectara ingestion tool
(`jira_ingest.py`).

The Python source is shallowly embedded: JSON values become the mutual
inductive `Json`/`JList`/`JObj` (mutual rather than nested so that all
recursions below are structural and kernel-reducible), and each Python
function that can raise becomes a Lean function into `Except String _`,
where `Except.error` marks the exact program points at which the Python
code would raise an exception (`TypeError` on iterating a non-iterable,
`AttributeError` on calling `.get` on a non-dict, and so on).

Numbers are modelled as `Int` (the scripts concerned never do float
arithmetic on JSON numbers; only truthiness and string conversion of
numbers matter here).  Python's `str.strip` is modelled by `pyStrip`
over the exact ASCII whitespace set Python uses, and `"sep".join` by
`pyJoin`.
-/

set_option autoImplicit false

namespace JiraIngest

/-! JSON values, as produced by `response.json()`.  `JList` and `JObj`
are the element-list and field-list types, declared mutually with
`Json` (instead of using nested `List`) so that functions over the
tree are structurally recursive. -/

mutual

inductive Json where
  | null : Json
  | bool : Bool → Json
  | num : Int → Json
  | str : String → Json
  | arr : JList → Json
  | obj : JObj → Json

inductive JList where
  | nil : JList
  | cons : Json → JList → JList

inductive JObj where
  | nil : JObj
  | cons : String → Json → JObj → JObj

end

namespace JObj

/-- First value stored under key `k`, like a Python dict lookup
(Python dict keys are unique, so first-match is exact). -/
def find : JObj → String → Option Json
  | .nil, _ => none
  | .cons k v rest, key => if k = key then some v else find rest key

/-- `d.get(k, dflt)` on a Python dict. -/
def get (o : JObj) (k : String) (dflt : Json) : Json :=
  match o.find k with
  | some v => v
  | none => dflt

def isEmpty : JObj → Bool
  | .nil => true
  | .cons _ _ _ => false

/-- `k in d` on a Python dict. -/
def hasKey (o : JObj) (k : String) : Bool :=
  match o.find k with
  | some _ => true
  | none => false

/-- Iterating a Python dict yields its keys. -/
def keys : JObj → List String
  | .nil => []
  | .cons k _ rest => k :: keys rest

end JObj

namespace JList

def isEmpty : JList → Bool
  | .nil => true
  | .cons _ _ => false

def length : JList → Nat
  | .nil => 0
  | .cons _ rest => 1 + length rest

end JList

/-- Python truthiness (`if x:`) of a JSON value. -/
def truthy : Json → Bool
  | .null => false
  | .bool b => b
  | .num n => n != 0
  | .str s => s != ""
  | .arr xs => !xs.isEmpty
  | .obj fs => !fs.isEmpty

/-- The whitespace characters removed by Python's `str.strip()`
(ASCII part; exotic unicode spaces are out of scope). -/
def isPySpace (c : Char) : Bool :=
  c = ' ' || c = '\t' || c = '\n' || c = '\r' || c = '\x0b' || c = '\x0c'

/-- Python's `s.strip()`. -/
def pyStrip (s : String) : String :=
  String.mk (((s.data.dropWhile isPySpace).reverse.dropWhile isPySpace).reverse)

/-- Python's `sep.join(parts)`. -/
def pyJoin (sep : String) : List String → String
  | [] => ""
  | [x] => x
  | x :: rest => x ++ sep ++ pyJoin sep rest

/-! `pyRepr` is `repr` of a JSON value, as Python would print it inside
an f-string conversion of a container (string escaping inside `repr`
of a string is elided — no claim depends on it). -/

mutual

def pyRepr : Json → String
  | .null => "None"
  | .bool true => "True"
  | .bool false => "False"
  | .num n => toString n
  | .str s => "'" ++ s ++ "'"
  | .arr xs => "[" ++ pyJoin ", " (pyReprList xs) ++ "]"
  | .obj fs => "\x7b" ++ pyJoin ", " (pyReprObj fs) ++ "\x7d"

def pyReprList : JList → List String
  | .nil => []
  | .cons x rest => pyRepr x :: pyReprList rest

def pyReprObj : JObj → List String
  | .nil => []
  | .cons k v rest => ("'" ++ k ++ "': " ++ pyRepr v) :: pyReprObj rest

end

/-- `str(x)` / f-string conversion of a JSON value. -/
def pyStr : Json → String
  | .str s => s
  | j => pyRepr j

/-- `adf_content.get("type", "") == kind` — true only when the `type`
field holds exactly the string `kind`. -/
def typeIs (fs : JObj) (kind : String) : Bool :=
  match fs.get "type" (.str "") with
  | .str t => t = kind
  | _ => false

/-!
## Content Decoder: `extract_adf_text` (jira_ingest.py lines 192-269)

`Except.error` marks the inputs on which the Python function raises:

* iterating `adf_content.get("content", [])` when that value is `None`,
  a number or a boolean raises `TypeError` (iterating a string yields
  its characters, iterating a dict yields its keys — both harmless);
* `adf_content.get("attrs", {}).get(...)` raises `AttributeError` when
  the present `attrs` value is not a dict;
* a `text` node whose `text` value is not a string is returned as a
  non-string, which every caller in this program immediately feeds to
  `str.join` or `.strip()` where Python raises; that raise is modelled
  at the node (observably equivalent at every call site of this
  program).
-/

mutual

def extract_adf_text : Json → Except String String
  | .null => .ok ""                     -- falsy → ""
  | .bool _ => .ok ""                   -- False falsy; True is no str/dict/list
  | .num _ => .ok ""                    -- 0 falsy; other numbers fall through
  | .str s => .ok s                     -- "" falsy → "" = s; otherwise returned unchanged
  | .arr xs =>
    match extractList xs with           -- "".join over the items
    | .error e => .error e
    | .ok parts => .ok (pyJoin "" parts)
  | .obj fs =>
    if fs.isEmpty then .ok ""           -- {} is falsy
    else if typeIs fs "text" then
      match fs.get "text" (.str "") with
      | .str s => .ok s
      | _ => .error "TypeError: non-string text value"
    else if typeIs fs "paragraph" || typeIs fs "heading" then
      match contentOf fs with
      | .error e => .error e
      | .ok parts => .ok (pyJoin "" parts ++ "\n\n")
    else if typeIs fs "bulletList" || typeIs fs "orderedList" then
      match contentOf fs with
      | .error e => .error e
      | .ok parts => .ok (pyJoin "\n" (parts.map (fun t => "• " ++ pyStrip t)) ++ "\n\n")
    else if typeIs fs "listItem" then
      match contentOf fs with
      | .error e => .error e
      | .ok parts => .ok (pyJoin "" parts)
    else if typeIs fs "codeBlock" then
      match contentOf fs with
      | .error e => .error e
      | .ok parts => .ok ("[CODE: " ++ pyJoin "" parts ++ "]\n\n")
    else if typeIs fs "inlineCard" then
      match fs.get "attrs" (.obj .nil) with
      | .obj afs => .ok ("[" ++ pyStr (afs.get "url" (.str "")) ++ "] ")
      | _ => .error "AttributeError: attrs is not a dict"
    else if typeIs fs "doc" then
      match contentOf fs with
      | .error e => .error e
      | .ok parts => .ok (pyJoin "" parts)
    else if fs.hasKey "content" then    -- generic fallback
      match contentOf fs with
      | .error e => .error e
      | .ok parts => .ok (pyJoin "" parts)
    else .ok ""

/-- Decodes each element of `adf_content.get("content", [])`, walking
the field list for the first `content` entry (absent → `[]`). -/
def contentOf : JObj → Except String (List String)
  | .nil => .ok []
  | .cons k v rest => if k = "content" then elemsOf v else contentOf rest

/-- `[self.extract_adf_text(item) for item in value]` where `value` is
the looked-up `content`: lists recurse; strings yield their characters
(each a one-character string, which decodes to itself); dicts yield
their keys (strings, ditto); anything else raises `TypeError`. -/
def elemsOf : Json → Except String (List String)
  | .arr xs => extractList xs
  | .str s => .ok (s.data.map (fun c => String.mk [c]))
  | .obj fs => .ok fs.keys
  | _ => .error "TypeError: content is not iterable"

def extractList : JList → Except String (List String)
  | .nil => .ok []
  | .cons x rest =>
    match extract_adf_text x with
    | .error e => .error e
    | .ok s =>
      match extractList rest with
      | .error e => .error e
      | .ok r => .ok (s :: r)

end

/-!
## Issue → Document mapping: `_process_issue` (jira_ingest.py lines 370-463)
-/

/-- One named text section of a Vectara document. -/
structure Section' where
  title : String
  text : String
deriving DecidableEq

/-- The document handed to `VectaraIndexer.index_document`.  `id` and
`title` are kept as raw JSON values, exactly as the Python code stores
whatever `issue.get("key", "unknown")` / `fields.get("summary", key)`
returned. -/
structure Document where
  id : Json
  title : Json
  metadata : List (String × Json)
  sections : List Section'

/-- One guarded metadata line, e.g.
`if fields.get("project"): metadata["project"] = fields["project"].get("name", "")`.
Raises (`AttributeError`) when the field is truthy but not a dict. -/
def addSub (ffs : JObj) (k mk sub : String) (md : List (String × Json)) :
    Except String (List (String × Json)) :=
  let v := ffs.get k .null
  if truthy v then
    match v with
    | .obj vfs => .ok (md ++ [(mk, vfs.get sub (.str ""))])
    | _ => .error "AttributeError: field is not a dict"
  else .ok md

/-- One verbatim metadata line, e.g.
`if fields.get("created"): metadata["created"] = fields["created"]`. -/
def addCopy (ffs : JObj) (k mk : String) (md : List (String × Json)) :
    List (String × Json) :=
  if truthy (ffs.get k .null) then md ++ [(mk, ffs.get k .null)] else md

/-- Iterating a JSON value with a Python `for` loop: lists yield their
elements, strings their characters, dicts their keys; anything else
raises `TypeError`. -/
def pyIter : Json → Except String JList
  | .arr xs => .ok xs
  | .str s => .ok (s.data.foldr (fun c acc => JList.cons (.str (String.mk [c])) acc) .nil)
  | .obj fs => .ok ((fs.keys).foldr (fun k acc => JList.cons (.str k) acc) .nil)
  | _ => .error "TypeError: not iterable"

/-- The `try` block of one comment iteration (lines 426-432): decode
the body (`comment.get("body", {})`); on failure skip the comment; on
success keep `f"{author}: {comment_body.strip()}"` iff the stripped
body is truthy.  `afs` is the already-looked-up `author` dict. -/
def commentEntry (cfs afs : JObj) : Option String :=
  match extract_adf_text (cfs.get "body" (.obj .nil)) with
  | .error _ => none
  | .ok body =>
    if pyStrip body ≠ "" then
      some (pyStr (afs.get "displayName" (.str "Unknown")) ++ ": " ++ pyStrip body)
    else none

/-- One iteration of the comment loop (lines 424-432), given the
result `restR` of the remaining iterations.
`author = comment.get("author", {}).get("displayName", "Unknown")`
runs outside the `try`, so a non-dict comment or a present non-dict
`author` raises out of `_process_issue`; the body extraction
(`commentEntry`) runs inside the `try` and can only skip the
comment. -/
def commentStep (c : Json) (restR : Except String (List String)) :
    Except String (List String) :=
  match c with
  | .obj cfs =>
    match cfs.get "author" (.obj .nil) with
    | .obj afs =>
      match restR with
      | .error e => .error e
      | .ok ls =>
        .ok (match commentEntry cfs afs with
             | some l => l :: ls
             | none => ls)
    | _ => .error "AttributeError: author is not a dict"
  | _ => .error "AttributeError: comment is not a dict"

/-- The comment loop (lines 423-432), in source order. -/
def commentLines : JList → Except String (List String)
  | .nil => .ok []
  | .cons c rest => commentStep c (commentLines rest)

/-- `_process_issue`, faithful to the line order of the source;
`Except.error` marks exactly the points where the Python body raises
(the caller `crawl` catches those per issue). -/
def processIssue (base_url : String) (issue : Json) : Except String Document :=
  match issue with
  | .obj ifs =>
    let issue_key := ifs.get "key" (.str "unknown")
    match ifs.get "fields" (.obj .nil) with
    | .obj ffs =>
      let md0 : List (String × Json) :=
        [("source", .str "jira"),
         ("url", .str (base_url ++ "/browse/" ++ pyStr issue_key))]
      match addSub ffs "project" "project" "name" md0 with
      | .error e => .error e
      | .ok md1 =>
      match addSub ffs "issuetype" "issueType" "name" md1 with
      | .error e => .error e
      | .ok md2 =>
      match addSub ffs "status" "status" "name" md2 with
      | .error e => .error e
      | .ok md3 =>
      match addSub ffs "priority" "priority" "name" md3 with
      | .error e => .error e
      | .ok md4 =>
      match addSub ffs "reporter" "reporter" "displayName" md4 with
      | .error e => .error e
      | .ok md5 =>
      match addSub ffs "assignee" "assignee" "displayName" md5 with
      | .error e => .error e
      | .ok md6 =>
      let md7 := addCopy ffs "created" "created" md6
      let md8 := addCopy ffs "updated" "last_updated" md7
      let md9 := addCopy ffs "resolutiondate" "resolved" md8
      let md10 := addCopy ffs "labels" "labels" md9
      let dv := ffs.get "description" .null
      match (if truthy dv then extract_adf_text dv else .ok "") with
      | .error e => .error e
      | .ok description0 =>
      let description :=
        if pyStrip description0 = "" then "Issue: " ++ pyStr issue_key
        else description0
      match ffs.get "comment" (.obj .nil) with
      | .obj cfs =>
        match pyIter (cfs.get "comments" (.arr .nil)) with
        | .error e => .error e
        | .ok celems =>
        match commentLines celems with
        | .error e => .error e
        | .ok lines =>
        let title := ffs.get "summary" issue_key
        match ffs.get "status" (.obj .nil) with
        | .obj sfs =>
          let status_text := sfs.get "name" (.str "Unknown")
          .ok { id := issue_key
                title := title
                metadata := md10
                sections :=
                  [⟨"Description", description⟩,
                   ⟨"Comments",
                    if lines = [] then "No comments" else pyJoin "\n\n" lines⟩,
                   ⟨"Status", "Issue " ++ pyStr title ++ " is " ++ pyStr status_text⟩] }
        | _ => .error "AttributeError: status is not a dict"
      | _ => .error "AttributeError: comment container is not a dict"
    | _ => .error "AttributeError: fields is not a dict"
  | _ => .error "AttributeError: issue is not a dict"

/-!
## Indexing collaborator: `VectaraIndexer.index_document` (lines 70-130)

Only the outcome classification matters to the orchestrator: the HTTP
POST either yields a status code or raises inside the `try`.
-/

/-- Outcome of the POST to the Vectara documents endpoint. -/
inductive PostOutcome where
  | status : Nat → PostOutcome
  | exc : PostOutcome
deriving DecidableEq

/-- Lines 118-130: `200 → True`, `409` (already exists) `→ True`,
any other status `→ False`, exception `→ False`. -/
def index_document (r : PostOutcome) : Bool :=
  match r with
  | .status code =>
    if code == 200 then true
    else if code == 409 then true
    else false
  | .exc => false

/-!
## Crawl Orchestrator: `crawl` (lines 271-368)

The issue-processing outcome of each issue of a page is abstracted to
`IssueOutcome` (the document assembly itself is `processIssue` above;
logging is elided).  A page-fetch fault (network or JSON-parse error in
lines 318-332) is `Except.error` from the fetch function; the `crawl`
loop catches it and breaks.  The loop is given explicit fuel, one unit
per page fetch; `none` means the loop was still running after that
many fetches.
-/

/-- What happened for one issue of a page: `_process_issue` ran to its
submission and the POST had this outcome, or `_process_issue` raised
(caught by lines 346-348, `continue`). -/
inductive IssueOutcome where
  | submitted : PostOutcome → IssueOutcome
  | procExc : IssueOutcome
deriving DecidableEq

/-- `if self._process_issue(issue): issue_count += 1` with the
surrounding `try/except: continue`. -/
def issueSuccess : IssueOutcome → Bool
  | .submitted o => index_document o
  | .procExc => false

/-- The per-page issue loop (lines 342-348): processes every issue in
order, incrementing the running count on success. -/
def processIssues : List IssueOutcome → Nat → Nat
  | [], c => c
  | i :: rest, c => processIssues rest (if issueSuccess i then c + 1 else c)

/-- Number of successfully indexed issues of one page. -/
def pageCount (issues : List IssueOutcome) : Nat := processIssues issues 0

/-- A Mode A (API v2) page response: the issue list and the `total`
reported by the source (`data.get("total", 0)` — an absent total is
already folded to `0`). -/
structure PageV2 where
  issues : List IssueOutcome
  total : Nat

/-- Mode A loop (API v2, offset pagination).  `fetch` maps the
`startAt` of the request to the page response or a fetch fault; the
fixed `maxResults` page-size parameter is part of the request `fetch`
models and does not otherwise appear in the loop.  Arguments after
`fetch`: fuel, `start_at`, `issue_count`. -/
def crawlV2 (fetch : Nat → Except Unit PageV2) : Nat → Nat → Nat → Option Nat
  | 0, _, _ => none
  | fuel + 1, start_at, issue_count =>
    match fetch start_at with
    | .error _ => some issue_count                 -- lines 330-332: break
    | .ok page =>
      if page.issues.isEmpty then some issue_count -- lines 335-337: break
      else
        let issue_count' := processIssues page.issues issue_count
        let start_at' := start_at + page.issues.length
        if page.total ≤ start_at' then some issue_count'  -- lines 352-355
        else crawlV2 fetch fuel start_at' issue_count'

/-- A Mode B (API v3) page response.  `isLast` is the raw optional
flag (`data.get("isLast", True)` defaults to true when absent);
`nextPageToken` is the optional continuation token. -/
structure PageV3 where
  issues : List IssueOutcome
  isLast : Option Bool
  nextPageToken : Option String

/-- Python truthiness of the token (`if not next_page_token: break`
also fires on an empty-string token). -/
def tokenTruthy : Option String → Bool
  | none => false
  | some s => s != ""

/-- Mode B loop (API v3, token pagination).  `fetch` maps the token of
the request (`none` on the first page) to the response or a fetch
fault.  Arguments after `fetch`: fuel, current token, `issue_count`. -/
def crawlV3 (fetch : Option String → Except Unit PageV3) :
    Nat → Option String → Nat → Option Nat
  | 0, _, _ => none
  | fuel + 1, tok, issue_count =>
    match fetch tok with
    | .error _ => some issue_count                 -- lines 330-332: break
    | .ok page =>
      if page.issues.isEmpty then some issue_count -- lines 335-337: break
      else
        let issue_count' := processIssues page.issues issue_count
        if page.isLast.getD true then some issue_count'       -- lines 358-361
        else if tokenTruthy page.nextPageToken then
          crawlV3 fetch fuel page.nextPageToken issue_count'  -- lines 362
        else some issue_count'                                -- lines 363-365

/-!
## Well-formedness predicates

`wfNode` delimits the ADF trees on which the decoder cannot raise:
every `content` value is a list of such trees, every `attrs` value (if
present) is a dict, every `text` value (if present) is a string.
-/

mutual

def wfNode : Json → Bool
  | .obj fs => wfFields fs
  | .arr xs => wfList xs
  | _ => true

def wfFields : JObj → Bool
  | .nil => true
  | .cons k v rest => wfEntry k v && wfFields rest

def wfEntry (k : String) (v : Json) : Bool :=
  if k = "content" then
    match v with
    | .arr xs => wfList xs
    | _ => false
  else if k = "attrs" then
    match v with
    | .obj _ => true
    | _ => false
  else if k = "text" then
    match v with
    | .str _ => true
    | _ => false
  else true

def wfList : JList → Bool
  | .nil => true
  | .cons x rest => wfNode x && wfList rest

end

/-- A guarded metadata field is safe iff it is falsy (skipped) or a
dict. -/
def wfGuarded (v : Json) : Bool :=
  !truthy v ||
  (match v with
   | .obj _ => true
   | _ => false)

/-- `status` must be absent or a dict: line 436 applies `.get` to it
whenever it is present, even when falsy. -/
def wfOptDict : Option Json → Bool
  | none => true
  | some (.obj _) => true
  | some _ => false

/-- A comment element must be a dict whose `author`, if present, is a
dict (line 425 runs outside the `try`); its body may be anything
(body faults are caught). -/
def wfComment : Json → Bool
  | .obj cfs => wfOptDict (cfs.find "author")
  | _ => false

def wfComments : JList → Bool
  | .nil => true
  | .cons c rest => wfComment c && wfComments rest

/-- Issues on which `_process_issue` cannot raise: see the C2
analysis — guarded metadata fields falsy-or-dict, `status` and the
`comment` container absent-or-dict, `comments` absent or a list of
well-formed comments, the description decodable. -/
def wfIssue (issue : Json) : Bool :=
  match issue with
  | .obj ifs =>
    match ifs.get "fields" (.obj .nil) with
    | .obj ffs =>
      wfGuarded (ffs.get "project" .null)
      && wfGuarded (ffs.get "issuetype" .null)
      && wfGuarded (ffs.get "priority" .null)
      && wfGuarded (ffs.get "reporter" .null)
      && wfGuarded (ffs.get "assignee" .null)
      && wfOptDict (ffs.find "status")
      && (let dv := ffs.get "description" .null
          !truthy dv || wfNode dv)
      && (match ffs.find "comment" with
          | none => true
          | some (.obj cfs) =>
            (match cfs.find "comments" with
             | none => true
             | some (.arr cs) => wfComments cs
             | some _ => false)
          | some _ => false)
    | _ => false
  | _ => false

/-!
## Pure projections of an issue, used to state the claims
-/

/-- `issue.get("key", "unknown")`. -/
def issueKey (issue : Json) : Json :=
  match issue with
  | .obj ifs => ifs.get "key" (.str "unknown")
  | _ => .str "unknown"

/-- The `fields` dict of an issue (empty when absent or not a dict). -/
def issueFieldsD (issue : Json) : JObj :=
  match issue with
  | .obj ifs =>
    match ifs.get "fields" (.obj .nil) with
    | .obj ffs => ffs
    | _ => .nil
  | _ => .nil

/-- `fields.get("summary", issue_key)`. -/
def issueTitle (issue : Json) : Json :=
  (issueFieldsD issue).get "summary" (issueKey issue)

/-- `fields.get("description")`. -/
def issueDescription (issue : Json) : Json :=
  (issueFieldsD issue).get "description" .null

/-- The decoded description text: `""` when the field is falsy,
otherwise what `extract_adf_text` returns (when it returns). -/
def decodedDescription (issue : Json) : String :=
  if truthy (issueDescription issue) then
    ((extract_adf_text (issueDescription issue)).toOption).getD ""
  else ""

/-- `fields.get("comment", {}).get("comments", [])` (null when the
container is not a dict). -/
def issueCommentsVal (issue : Json) : Json :=
  match (issueFieldsD issue).get "comment" (.obj .nil) with
  | .obj cfs => cfs.get "comments" (.arr .nil)
  | _ => .null

/-- The decoded body of one comment (`""` when the comment is
malformed or its body fails to decode). -/
def commentBodyDecoded (c : Json) : String :=
  match c with
  | .obj cfs => ((extract_adf_text (cfs.get "body" (.obj .nil))).toOption).getD ""
  | _ => ""

/-- `comment.get("author", {}).get("displayName", "Unknown")`, as a
pure projection. -/
def commentAuthorName (c : Json) : Json :=
  match c with
  | .obj cfs =>
    match cfs.get "author" (.obj .nil) with
    | .obj afs => afs.get "displayName" (.str "Unknown")
    | _ => .str "Unknown"
  | _ => .str "Unknown"

/-- The comments that survive: decoded body non-blank after
stripping, in source order. -/
def keptComments : JList → List Json
  | .nil => []
  | .cons c rest =>
    if pyStrip (commentBodyDecoded c) ≠ "" then c :: keptComments rest
    else keptComments rest

/-- The rendering of one surviving comment. -/
def renderComment (c : Json) : String :=
  pyStr (commentAuthorName c) ++ ": " ++ pyStrip (commentBodyDecoded c)

/-- The `i`-th section of a successfully produced document. -/
def sectionAt (e : Except String Document) (i : Nat) : Option Section' :=
  match e with
  | .ok d => d.sections.get? i
  | .error _ => none

/-!
Concrete inputs used by counterexamples and witnesses.
-/

/-- A paragraph node whose `content` is the number `5` — iterating it
raises `TypeError` in Python (line 218: `for item in
adf_content.get("content", [])`). -/
def badParagraph : Json :=
  .obj (.cons "type" (.str "paragraph") (.cons "content" (.num 5) .nil))

/-- A well-formed document node: one paragraph with two text children. -/
def goodDoc : Json :=
  .obj (.cons "type" (.str "doc")
    (.cons "content" (.arr (.cons (.obj (.cons "type" (.str "paragraph")
      (.cons "content" (.arr
        (.cons (.obj (.cons "type" (.str "text") (.cons "text" (.str "a") .nil)))
        (.cons (.obj (.cons "type" (.str "text") (.cons "text" (.str "b") .nil)))
          .nil))) .nil))) .nil)) .nil))

/-- An issue whose `status` field is JSON `null`: line 436
`fields.get("status", {}).get("name", "Unknown")` calls `.get` on
`None` and raises `AttributeError`. -/
def nullStatusIssue : Json :=
  .obj (.cons "key" (.str "K")
    (.cons "fields" (.obj (.cons "status" .null .nil)) .nil))

/-- A minimal well-formed issue: a key and an empty `fields` dict. -/
def wfSampleIssue : Json :=
  .obj (.cons "key" (.str "K") (.cons "fields" (.obj .nil) .nil))

/-- The document `_process_issue` produces for `wfSampleIssue` with
base URL `https://j`. -/
def wfSampleDoc : Document :=
  { id := .str "K"
    title := .str "K"
    metadata := [("source", .str "jira"), ("url", .str "https://j/browse/K")]
    sections :=
      [⟨"Description", "Issue: K"⟩,
       ⟨"Comments", "No comments"⟩,
       ⟨"Status", "Issue K is Unknown"⟩] }

/-- An `inlineCard` node with no `attrs` at all. -/
def inlineCardNoUrl : Json := .obj (.cons "type" (.str "inlineCard") .nil)

/-- Field list of an `inlineCard` carrying a URL. -/
def cardFields : JObj :=
  .cons "type" (.str "inlineCard")
    (.cons "attrs" (.obj (.cons "url" (.str "https://x") .nil)) .nil)

/-- The `attrs` dict of `cardFields`. -/
def cardAttrs : JObj := .cons "url" (.str "https://x") .nil

/-- A Mode A source that always reports total 3 but returns a single
issue per page (fixed honest total, short pages). -/
def shortPageFetch : Nat → Except Unit PageV2 :=
  fun _ => .ok ⟨[.submitted (.status 200)], 3⟩

/-- A Mode A source with total 3 that fills every page up to page
size 2. -/
def fullPageFetch : Nat → Except Unit PageV2 :=
  fun o => .ok ⟨List.replicate (min 2 (3 - o)) (.submitted (.status 200)), 3⟩

/-- A Mode B source whose first response is flagged last while still
carrying a continuation token. -/
def lastPageFetch : Option String → Except Unit PageV3 :=
  fun _ => .ok ⟨[.submitted (.status 200)], some true, some "t2"⟩

/-- A Mode A source: two good pages (2 issues then 1 issue, total 10),
then a network fault on the third fetch. -/
def threePageFetch : Nat → Except Unit PageV2 :=
  fun o =>
    if o == 0 then .ok ⟨[.submitted (.status 200), .submitted (.status 500)], 10⟩
    else if o == 2 then .ok ⟨[.submitted (.status 409)], 10⟩
    else .error ()

/-!
## Lemmas
-/

theorem isOk_exists {ε α : Type} {e : Except ε α} (h : e.isOk = true) :
    ∃ a, e = .ok a := by
  cases e with
  | error e => simp [Except.isOk, Except.toBool] at h
  | ok a => exact ⟨a, rfl⟩

theorem isOk_of_eq_ok {ε α : Type} {e : Except ε α} {a : α} (h : e = .ok a) :
    e.isOk = true := by
  subst h; rfl

/-- Splitting well-formedness of a non-empty field list. -/
theorem wfFields_cons {k : String} {v : Json} {rest : JObj}
    (h : wfFields (.cons k v rest) = true) :
    wfEntry k v = true ∧ wfFields rest = true := by
  rw [wfFields, Bool.and_eq_true] at h
  exact h

theorem wfEntry_text {v : Json} (h : wfEntry "text" v = true) : ∃ s, v = .str s := by
  cases v <;> simp [wfEntry] at h
  exact ⟨_, rfl⟩

theorem wfEntry_attrs {v : Json} (h : wfEntry "attrs" v = true) : ∃ afs, v = .obj afs := by
  cases v <;> simp [wfEntry] at h
  exact ⟨_, rfl⟩

theorem wfEntry_content {v : Json} (h : wfEntry "content" v = true) :
    ∃ xs, v = .arr xs ∧ wfList xs = true := by
  cases v <;> simp [wfEntry] at h
  exact ⟨_, rfl, h⟩

/-- Any `text` entry of a well-formed field list is a string. -/
theorem wfFields_text : ∀ {fs : JObj}, wfFields fs = true →
    ∃ s, fs.get "text" (.str "") = .str s
  | .nil, _ => ⟨"", rfl⟩
  | .cons k v rest, h => by
    obtain ⟨h1, h2⟩ := wfFields_cons h
    by_cases hk : k = "text"
    · subst hk
      obtain ⟨s, rfl⟩ := wfEntry_text h1
      exact ⟨s, by simp [JObj.get, JObj.find]⟩
    · have heq : (JObj.cons k v rest).get "text" (.str "") = rest.get "text" (.str "") := by
        simp [JObj.get, JObj.find, hk]
      rw [heq]
      exact wfFields_text h2

/-- Any `attrs` entry of a well-formed field list is a dict. -/
theorem wfFields_attrs : ∀ {fs : JObj}, wfFields fs = true →
    ∃ afs, fs.get "attrs" (.obj .nil) = .obj afs
  | .nil, _ => ⟨.nil, rfl⟩
  | .cons k v rest, h => by
    obtain ⟨h1, h2⟩ := wfFields_cons h
    by_cases hk : k = "attrs"
    · subst hk
      obtain ⟨afs, rfl⟩ := wfEntry_attrs h1
      exact ⟨afs, by simp [JObj.get, JObj.find]⟩
    · have heq : (JObj.cons k v rest).get "attrs" (.obj .nil) = rest.get "attrs" (.obj .nil) := by
        simp [JObj.get, JObj.find, hk]
      rw [heq]
      exact wfFields_attrs h2

/-!
The decoder cannot raise on well-formed trees (mutual induction over
the tree: the content of a well-formed dict is a list of well-formed
trees, `attrs` is a dict, `text` is a string, so every `Except.error`
site is unreachable).
-/

mutual

theorem extract_wf : ∀ (j : Json), wfNode j = true → (extract_adf_text j).isOk = true
  | .null, _ => rfl
  | .bool _, _ => rfl
  | .num _, _ => rfl
  | .str _, _ => rfl
  | .arr xs, h => by
    rw [wfNode] at h
    obtain ⟨parts, hp⟩ := isOk_exists (extractList_wf xs h)
    rw [extract_adf_text, hp]
    rfl
  | .obj fs, h => by
    rw [wfNode] at h
    rw [extract_adf_text]
    split_ifs with h1 h2 h3 h4 h5 h6 h7 h8 h9
    · rfl
    · obtain ⟨s, hs⟩ := wfFields_text h
      rw [hs]
      rfl
    · obtain ⟨parts, hp⟩ := isOk_exists (contentOf_wf fs h)
      rw [hp]
      rfl
    · obtain ⟨parts, hp⟩ := isOk_exists (contentOf_wf fs h)
      rw [hp]
      rfl
    · obtain ⟨parts, hp⟩ := isOk_exists (contentOf_wf fs h)
      rw [hp]
      rfl
    · obtain ⟨parts, hp⟩ := isOk_exists (contentOf_wf fs h)
      rw [hp]
      rfl
    · obtain ⟨afs, ha⟩ := wfFields_attrs h
      rw [ha]
      rfl
    · obtain ⟨parts, hp⟩ := isOk_exists (contentOf_wf fs h)
      rw [hp]
      rfl
    · obtain ⟨parts, hp⟩ := isOk_exists (contentOf_wf fs h)
      rw [hp]
      rfl
    · rfl

theorem contentOf_wf : ∀ (fs : JObj), wfFields fs = true → (contentOf fs).isOk = true
  | .nil, _ => rfl
  | .cons k v rest, h => by
    obtain ⟨h1, h2⟩ := wfFields_cons h
    rw [contentOf]
    by_cases hk : k = "content"
    · subst hk
      obtain ⟨xs, rfl, hxs⟩ := wfEntry_content h1
      rw [if_pos rfl]
      exact extractList_wf xs hxs
    · simp only [hk, reduceIte]
      exact contentOf_wf rest h2

theorem extractList_wf : ∀ (xs : JList), wfList xs = true → (extractList xs).isOk = true
  | .nil, _ => rfl
  | .cons x rest, h => by
    rw [wfList, Bool.and_eq_true] at h
    obtain ⟨s, hs⟩ := isOk_exists (extract_wf x h.1)
    obtain ⟨r, hr⟩ := isOk_exists (extractList_wf rest h.2)
    rw [extractList, hs, hr]
    rfl

end

/-!
Counting lemmas for the per-page issue loop.
-/

theorem processIssues_acc (is : List IssueOutcome) :
    ∀ c : Nat, processIssues is c = c + pageCount is := by
  induction is with
  | nil => intro c; simp [processIssues, pageCount]
  | cons i rest ih =>
    intro c
    simp only [pageCount, processIssues]
    rw [ih, ih]
    cases hsi : issueSuccess i <;> (simp [hsi, pageCount]; try omega)

theorem pageCount_cons (i : IssueOutcome) (rest : List IssueOutcome) :
    pageCount (i :: rest) = (if issueSuccess i then 1 else 0) + pageCount rest := by
  simp only [pageCount, processIssues]
  rw [processIssues_acc]
  cases hsi : issueSuccess i <;> simp [hsi, pageCount]

theorem processIssues_append (a b : List IssueOutcome) (c : Nat) :
    processIssues (a ++ b) c = processIssues b (processIssues a c) := by
  induction a generalizing c with
  | nil => rfl
  | cons i rest ih => rw [List.cons_append, processIssues, processIssues, ih]

theorem pageCount_append (a b : List IssueOutcome) :
    pageCount (a ++ b) = pageCount a + pageCount b := by
  rw [pageCount, processIssues_append, processIssues_acc]
  rfl

/-!
String non-emptiness facts.
-/

theorem ne_empty_of_length_pos {s : String} (h : 0 < s.length) : s ≠ "" := by
  intro he
  rw [he] at h
  simp at h

theorem append_colon_ne (a b : String) : a ++ ": " ++ b ≠ "" := by
  apply ne_empty_of_length_pos
  rw [String.length_append, String.length_append]
  have h2 : (": ").length = 2 := rfl
  omega

theorem length_pos_of_ne_empty {s : String} (h : s ≠ "") : 0 < s.length := by
  cases s with
  | mk cs =>
    cases cs with
    | nil => exact absurd rfl h
    | cons c t => simp [String.length]

theorem pyJoin_cons_ne (sep l : String) (rest : List String) (hl : l ≠ "") :
    pyJoin sep (l :: rest) ≠ "" := by
  cases rest with
  | nil => simpa [pyJoin] using hl
  | cons r t =>
    have hpj : pyJoin sep (l :: r :: t) = l ++ sep ++ pyJoin sep (r :: t) := rfl
    rw [hpj]
    apply ne_empty_of_length_pos
    rw [String.length_append, String.length_append]
    have := length_pos_of_ne_empty hl
    omega

/-!
The comment loop produces exactly the renderings of the surviving
comments, in order.
-/

theorem commentEntry_eq {cfs afs : JObj}
    (hau : cfs.get "author" (.obj .nil) = .obj afs) :
    commentEntry cfs afs =
      if pyStrip (commentBodyDecoded (.obj cfs)) ≠ "" then
        some (renderComment (.obj cfs))
      else none := by
  rw [commentEntry]
  cases hex : extract_adf_text (cfs.get "body" (.obj .nil)) with
  | error e =>
    have hb : commentBodyDecoded (.obj cfs) = "" := by
      simp [commentBodyDecoded, hex, Except.toOption]
    rw [hb]
    simp [pyStrip]
  | ok body =>
    have hb : commentBodyDecoded (.obj cfs) = body := by
      simp [commentBodyDecoded, hex, Except.toOption]
    rw [hb]
    by_cases hs : pyStrip body = ""
    · simp [hs]
    · simp only [hs, ne_eq, not_false_eq_true, reduceIte, ite_not]
      simp [hs, renderComment, hb, commentAuthorName, hau]

theorem commentLines_eq : ∀ (cs : JList) (ls : List String),
    commentLines cs = .ok ls → ls = (keptComments cs).map renderComment
  | .nil, ls, h => by
    rw [commentLines] at h
    cases h
    rfl
  | .cons c rest, ls, h => by
    rw [commentLines] at h
    unfold commentStep at h
    split at h
    · split at h
      · split at h
        · exact Except.noConfusion h
        · rename_i cfs x1 afs hau x2 ls' hcl
          have hrec := commentLines_eq rest ls' hcl
          have hent := commentEntry_eq hau
          have h3 := Except.ok.inj h
          rw [keptComments]
          by_cases hb : pyStrip (commentBodyDecoded (.obj cfs)) = ""
          · rw [hent] at h3
            simp only [hb, ne_eq, not_true_eq_false, reduceIte] at h3
            simp [hb, hrec, h3.symm]
          · rw [hent] at h3
            simp only [hb, ne_eq, not_false_eq_true, reduceIte] at h3
            simp [hb, hrec, h3.symm]
      · exact Except.noConfusion h
    · exact Except.noConfusion h

/-- Every line the comment loop emits has the `"author: body"` shape,
hence is non-empty. -/
theorem commentLines_ne_empty {cs : JList} {ls : List String}
    (h : commentLines cs = .ok ls) : ∀ l ∈ ls, l ≠ "" := by
  intro l hl
  rw [commentLines_eq cs ls h] at hl
  obtain ⟨c, _, rfl⟩ := List.mem_map.mp hl
  exact append_colon_ne _ _

/-!
Mode A fuel bound: with pages of exactly `min ps (T - offset)` issues,
`k + 1` units of fuel (page fetches) suffice whenever
`T - offset ≤ (k + 1) * ps`.
-/

theorem crawlV2_fuel (fetch : Nat → Except Unit PageV2) (T ps : Nat) (hps : 1 ≤ ps)
    (hfetch : ∀ o, ∃ is, fetch o = .ok ⟨is, T⟩ ∧ is.length = min ps (T - o)) :
    ∀ k o c, T - o ≤ (k + 1) * ps → (crawlV2 fetch (k + 1) o c).isSome = true := by
  intro k
  induction k with
  | zero =>
    intro o c hk
    obtain ⟨is, hf, hlen⟩ := hfetch o
    rw [crawlV2, hf]
    by_cases he : is.isEmpty
    · simp [he]
    · have hlen0 : is.length ≠ 0 := by
        intro h0
        exact he (List.isEmpty_iff_length_eq_zero.mpr h0)
      have hterm : T ≤ o + is.length := by omega
      simp [he, hterm]
  | succ k ih =>
    intro o c hk
    obtain ⟨is, hf, hlen⟩ := hfetch o
    rw [crawlV2, hf]
    by_cases he : is.isEmpty
    · simp [he]
    · by_cases hterm : T ≤ o + is.length
      · simp [he, hterm]
      · have hrec : T - (o + is.length) ≤ (k + 1) * ps := by
          have hmin : is.length = min ps (T - o) := hlen
          have : is.length = ps := by omega
          have hmul : (k + 1 + 1) * ps = (k + 1) * ps + ps := by ring
          omega
        have := ih (o + is.length) (processIssues is c) hrec
        simp [he, hterm]
        exact this

/-!
Inversion of a successful `_process_issue` run: the intermediate
values it must have computed, and the exact shape of the sections of
the resulting document.
-/

set_option maxRecDepth 8192 in
theorem processIssue_ok_inv {b : String} {issue : Json} {doc : Document}
    (h : processIssue b issue = .ok doc) :
    ∃ ifs ffs descr0 cfs celems lines sfs,
      issue = .obj ifs ∧
      ifs.get "fields" (.obj .nil) = .obj ffs ∧
      (if truthy (ffs.get "description" .null)
       then extract_adf_text (ffs.get "description" .null) else .ok "") = .ok descr0 ∧
      ffs.get "comment" (.obj .nil) = .obj cfs ∧
      pyIter (cfs.get "comments" (.arr .nil)) = .ok celems ∧
      commentLines celems = .ok lines ∧
      ffs.get "status" (.obj .nil) = .obj sfs ∧
      doc.sections =
        [⟨"Description",
          if pyStrip descr0 = "" then "Issue: " ++ pyStr (ifs.get "key" (.str "unknown"))
          else descr0⟩,
         ⟨"Comments", if lines = [] then "No comments" else pyJoin "\n\n" lines⟩,
         ⟨"Status",
          "Issue " ++ pyStr (ffs.get "summary" (ifs.get "key" (.str "unknown"))) ++ " is " ++
            pyStr (sfs.get "name" (.str "Unknown"))⟩] := by
  unfold processIssue at h
  dsimp only [] at h
  repeat' (first | exact Except.noConfusion h | split at h)
  all_goals
    injection h with hd
    subst hd
    exact ⟨_, _, _, _, _, _, _, rfl, by assumption, by assumption, by assumption,
      by assumption, by assumption, by assumption, by simp_all⟩

/-!
Forward totality: on a well-formed issue `_process_issue` cannot
raise.
-/

theorem addSub_ok {ffs : JObj} {k : String} (mk sub : String)
    (md : List (String × Json)) (h : wfGuarded (ffs.get k .null) = true) :
    ∃ md', addSub ffs k mk sub md = .ok md' := by
  cases hv : ffs.get k .null with
  | obj vfs =>
    by_cases ht : truthy (Json.obj vfs) = true
    · exact ⟨md ++ [(mk, vfs.get sub (.str ""))], by simp [addSub, hv, ht]⟩
    · exact ⟨md, by simp [addSub, hv, ht]⟩
  | null => exact ⟨md, by simp [addSub, hv, truthy]⟩
  | bool bb =>
    rw [hv] at h
    simp [wfGuarded, truthy] at h
    subst h
    exact ⟨md, by simp [addSub, hv, truthy]⟩
  | num n =>
    rw [hv] at h
    simp [wfGuarded, truthy] at h
    subst h
    exact ⟨md, by simp [addSub, hv, truthy]⟩
  | str st =>
    rw [hv] at h
    simp [wfGuarded, truthy] at h
    subst h
    exact ⟨md, by simp [addSub, hv, truthy]⟩
  | arr xs =>
    rw [hv] at h
    simp [wfGuarded, truthy] at h
    exact ⟨md, by simp [addSub, hv, truthy, h]⟩

theorem get_obj_of_wfOptDict {cfs : JObj} {k : String}
    (h : wfOptDict (cfs.find k) = true) :
    ∃ afs, cfs.get k (.obj .nil) = .obj afs := by
  cases hf : cfs.find k with
  | none => exact ⟨.nil, by simp [JObj.get, hf]⟩
  | some v =>
    rw [hf] at h
    cases v with
    | obj afs => exact ⟨afs, by simp [JObj.get, hf]⟩
    | null => simp [wfOptDict] at h
    | bool bb => simp [wfOptDict] at h
    | num n => simp [wfOptDict] at h
    | str st => simp [wfOptDict] at h
    | arr xs => simp [wfOptDict] at h

theorem wfGuarded_of_wfOptDict {ffs : JObj} {k : String}
    (h : wfOptDict (ffs.find k) = true) : wfGuarded (ffs.get k .null) = true := by
  cases hf : ffs.find k with
  | none => simp [JObj.get, hf, wfGuarded, truthy]
  | some v =>
    rw [hf] at h
    cases v with
    | obj vfs => simp [JObj.get, hf, wfGuarded]
    | null => simp [wfOptDict] at h
    | bool bb => simp [wfOptDict] at h
    | num n => simp [wfOptDict] at h
    | str st => simp [wfOptDict] at h
    | arr xs => simp [wfOptDict] at h

theorem commentLines_wf : ∀ (cs : JList), wfComments cs = true →
    (commentLines cs).isOk = true
  | .nil, _ => rfl
  | .cons c rest, h => by
    rw [wfComments, Bool.and_eq_true] at h
    obtain ⟨h1, h2⟩ := h
    obtain ⟨ls, hls⟩ := isOk_exists (commentLines_wf rest h2)
    rw [commentLines]
    cases c with
    | obj cfs =>
      obtain ⟨afs, hau⟩ := get_obj_of_wfOptDict (by simpa [wfComment] using h1)
      simp [commentStep, hau, hls, Except.isOk, Except.toBool]
    | null => simp [wfComment] at h1
    | bool bb => simp [wfComment] at h1
    | num n => simp [wfComment] at h1
    | str st => simp [wfComment] at h1
    | arr xs => simp [wfComment] at h1

/-- Unpacking the comment clause of `wfIssue`. -/
theorem wfComment_clause {ffs : JObj}
    (h : (match ffs.find "comment" with
          | none => true
          | some (Json.obj cfs) =>
            (match cfs.find "comments" with
             | none => true
             | some (Json.arr cs) => wfComments cs
             | some _ => false)
          | some _ => false) = true) :
    ∃ cfs celems, ffs.get "comment" (.obj .nil) = .obj cfs ∧
      pyIter (cfs.get "comments" (.arr .nil)) = .ok celems ∧
      wfComments celems = true := by
  split at h
  · rename_i hfc
    exact ⟨.nil, .nil, by simp [JObj.get, hfc], by simp [JObj.get, JObj.find, pyIter], rfl⟩
  · rename_i cfs hfc
    split at h
    · rename_i hfcs
      exact ⟨cfs, .nil, by simp [JObj.get, hfc], by simp [JObj.get, hfcs, pyIter], rfl⟩
    · rename_i cs hfcs
      exact ⟨cfs, cs, by simp [JObj.get, hfc], by simp [JObj.get, hfcs, pyIter], h⟩
    · simp at h
  · simp at h

set_option maxHeartbeats 1000000 in
theorem processIssue_wf_isOk (b : String) (issue : Json)
    (hw : wfIssue issue = true) : (processIssue b issue).isOk = true := by
  cases issue with
  | obj ifs =>
    cases hff : ifs.get "fields" (.obj .nil) with
    | obj ffs =>
      unfold wfIssue at hw
      dsimp only [] at hw
      rw [hff] at hw
      simp only [Bool.and_eq_true] at hw
      obtain ⟨⟨⟨⟨⟨⟨⟨hwp, hwi⟩, hwpr⟩, hwr⟩, hwa⟩, hws⟩, hwd⟩, hwc⟩ := hw
      obtain ⟨md1, h1⟩ := addSub_ok "project" "name"
        [("source", Json.str "jira"),
         ("url", Json.str (b ++ "/browse/" ++ pyStr (ifs.get "key" (.str "unknown"))))] hwp
      obtain ⟨md2, h2⟩ := addSub_ok "issueType" "name" md1 hwi
      obtain ⟨md3, h3⟩ := addSub_ok "status" "name" md2 (wfGuarded_of_wfOptDict hws)
      obtain ⟨md4, h4⟩ := addSub_ok "priority" "name" md3 hwpr
      obtain ⟨md5, h5⟩ := addSub_ok "reporter" "displayName" md4 hwr
      obtain ⟨md6, h6⟩ := addSub_ok "assignee" "displayName" md5 hwa
      have hdesc : ∃ d0, (if truthy (ffs.get "description" .null) = true
          then extract_adf_text (ffs.get "description" .null) else .ok "") = .ok d0 := by
        by_cases htr : truthy (ffs.get "description" .null) = true
        · rw [if_pos htr]
          refine isOk_exists (extract_wf _ ?_)
          simp only [htr, Bool.not_true, Bool.false_or] at hwd
          exact hwd
        · exact ⟨"", by rw [if_neg htr]⟩
      obtain ⟨d0, hd⟩ := hdesc
      obtain ⟨cfs, celems, hgc, hpc, hwcel⟩ := wfComment_clause hwc
      obtain ⟨lines, hcl⟩ := isOk_exists (commentLines_wf celems hwcel)
      obtain ⟨sfs, hsf⟩ := get_obj_of_wfOptDict hws
      unfold processIssue
      dsimp only []
      rw [hff]
      simp [h1, h2, h3, h4, h5, h6, hd, hgc, hpc, hcl, hsf, Except.isOk, Except.toBool]
    | null => unfold wfIssue at hw; dsimp only [] at hw; rw [hff] at hw; simp at hw
    | bool bb => unfold wfIssue at hw; dsimp only [] at hw; rw [hff] at hw; simp at hw
    | num n => unfold wfIssue at hw; dsimp only [] at hw; rw [hff] at hw; simp at hw
    | str st => unfold wfIssue at hw; dsimp only [] at hw; rw [hff] at hw; simp at hw
    | arr xs => unfold wfIssue at hw; dsimp only [] at hw; rw [hff] at hw; simp at hw
  | null => simp [wfIssue] at hw
  | bool bb => simp [wfIssue] at hw
  | num n => simp [wfIssue] at hw
  | str st => simp [wfIssue] at hw
  | arr xs => simp [wfIssue] at hw

/-!
String append associativity (used to normalise section texts).
-/

theorem str_append_assoc (a b c : String) : a ++ b ++ c = a ++ (b ++ c) := by
  rcases a with ⟨da⟩
  rcases b with ⟨db⟩
  rcases c with ⟨dc⟩
  show String.mk (da ++ db ++ dc) = String.mk (da ++ (db ++ dc))
  rw [List.append_assoc]

/-!
Single-step unfoldings of the Mode A loop.
-/

theorem crawlV2_step_ok {fetch : Nat → Except Unit PageV2} {p : PageV2} {o : Nat}
    (hf : fetch o = .ok p) (hne : p.issues.isEmpty = false)
    (hlt : o + p.issues.length < p.total) (fuel c : Nat) :
    crawlV2 fetch (fuel + 1) o c =
      crawlV2 fetch fuel (o + p.issues.length) (processIssues p.issues c) := by
  rw [crawlV2, hf]
  simp [hne, Nat.not_le.mpr hlt]

theorem crawlV2_step_err {fetch : Nat → Except Unit PageV2} {o : Nat}
    (hf : fetch o = .error ()) (fuel c : Nat) :
    crawlV2 fetch (fuel + 1) o c = some c := by
  rw [crawlV2, hf]

/-- A non-empty string prefix keeps an append non-empty. -/
theorem prefix_ne {a : String} (ha : 0 < a.length) (b : String) : a ++ b ≠ "" := by
  apply ne_empty_of_length_pos
  rw [String.length_append]
  omega

/-!
## The claims
-/

/-- Claim C1, counterexample: the claim says the decoder never raises
on any input, including malformed trees; but on a paragraph whose
`content` is the number `5`, line 218 iterates a non-iterable and
Python raises `TypeError` (modelled as `Except.error`). -/
theorem claim_C1_counterexample :
    (extract_adf_text badParagraph).isOk = false := rfl

/-- Claim C1 (amended): for every input tree that is well-formed —
every dict node's `content`, when present, is a list of such trees,
every present `attrs` is a dict and every present `text` is a string —
the decoder `extract_adf_text` returns a string and never raises, for
empty, plain-string, known- or unknown-kind dict, list, and deeply
nested input. -/
theorem claim_C1 (j : Json) (h : wfNode j = true) :
    (extract_adf_text j).isOk = true :=
  extract_wf j h

/-- Witness for C1 at a concrete well-formed nested document node. -/
theorem claim_C1_witness :
    wfNode goodDoc = true ∧ (extract_adf_text goodDoc).isOk = true :=
  ⟨rfl, claim_C1 goodDoc rfl⟩

/-- Claim C2, counterexample: the claim says `_process_issue` never
raises even when the status field is null; but with `status: null`,
line 436 `fields.get("status", {}).get("name", "Unknown")` calls
`.get` on `None` and raises `AttributeError`. -/
theorem claim_C2_counterexample :
    (processIssue "https://j" nullStatusIssue).isOk = false := rfl

/-- Claim C2 (amended): `_process_issue` is pure and total on every
well-formed issue — guarded optional fields absent, null, or
dict-shaped; `status` and the `comment` container absent or
dict-shaped (a null there raises); comments dicts with absent or
dict-shaped authors; description decodable — and when the status field
is absent the Status section reads `"Issue <title> is Unknown"`. -/
theorem claim_C2 (b : String) (issue : Json) (hw : wfIssue issue = true) :
    (processIssue b issue).isOk = true ∧
    ((issueFieldsD issue).find "status" = none →
      sectionAt (processIssue b issue) 2 =
        some ⟨"Status", "Issue " ++ pyStr (issueTitle issue) ++ " is Unknown"⟩) := by
  have hok := processIssue_wf_isOk b issue hw
  refine ⟨hok, fun hs => ?_⟩
  obtain ⟨doc, hdoc⟩ := isOk_exists hok
  obtain ⟨ifs, ffs, d0, cfs, celems, lines, sfs, heq, hf2, hd, hc2, hpi, hcl, hsf, hsec⟩ :=
    processIssue_ok_inv hdoc
  subst heq
  have hffs : issueFieldsD (.obj ifs) = ffs := by
    simp [issueFieldsD, hf2]
  rw [hffs] at hs
  have hget : ffs.get "status" (.obj .nil) = .obj .nil := by simp [JObj.get, hs]
  rw [hget] at hsf
  have hsfs : sfs = JObj.nil := by
    injection hsf with h'
    exact h'.symm
  subst hsfs
  have htitle : issueTitle (.obj ifs) = ffs.get "summary" (ifs.get "key" (.str "unknown")) := by
    unfold issueTitle issueKey
    rw [hffs]
  rw [htitle]
  simp only [sectionAt, hdoc, hsec, List.get?]
  have hnil : (JObj.nil.get "name" (.str "Unknown")) = .str "Unknown" := rfl
  rw [hnil]
  have hs2 : pyStr (Json.str "Unknown") = "Unknown" := rfl
  rw [hs2]
  rw [str_append_assoc ("Issue " ++ pyStr (ffs.get "summary" (ifs.get "key" (.str "unknown")))) " is " "Unknown"]
  rfl

/-- Witness for C2 at a concrete well-formed issue with no status
field. -/
theorem claim_C2_witness :
    wfIssue wfSampleIssue = true ∧
    (processIssue "https://j" wfSampleIssue).isOk = true ∧
    sectionAt (processIssue "https://j" wfSampleIssue) 2 =
      some ⟨"Status", "Issue " ++ pyStr (issueTitle wfSampleIssue) ++ " is Unknown"⟩ :=
  ⟨rfl, (claim_C2 "https://j" wfSampleIssue rfl).1,
    (claim_C2 "https://j" wfSampleIssue rfl).2 rfl⟩

/-- Claim C3, counterexample: the claim says an `inlineCard` with no
URL attribute yields the empty string; the code's f-string
`f"[{url}] "` with the looked-up default `url = ""` yields `"[] "`,
which is not `""`. -/
theorem claim_C3_counterexample :
    extract_adf_text inlineCardNoUrl = .ok "[] " ∧ ("[] " : String) ≠ "" :=
  ⟨rfl, by decide⟩

/-- Claim C3 (amended): for every `inlineCard` node, the decoder
emits `"[" ++ url ++ "] "` when the `attrs` dict carries a string
`url`, and `"[] "` (not `""`) when no `url` attribute is present. -/
theorem claim_C3 (fs afs : JObj) (u : String)
    (hty : typeIs fs "inlineCard" = true)
    (hattrs : fs.get "attrs" (.obj .nil) = .obj afs) :
    (afs.get "url" (.str "") = .str u →
      extract_adf_text (.obj fs) = .ok ("[" ++ u ++ "] ")) ∧
    (afs.find "url" = none →
      extract_adf_text (.obj fs) = .ok "[] ") := by
  have hne : fs.isEmpty = false := by
    cases fs with
    | nil => simp [typeIs, JObj.get, JObj.find] at hty
    | cons k v rest => rfl
  have hcard : fs.get "type" (.str "") = .str "inlineCard" := by
    unfold typeIs at hty
    cases hgt : fs.get "type" (.str "") with
    | str t =>
      rw [hgt] at hty
      simp only [decide_eq_true_eq] at hty
      rw [hty]
    | null => rw [hgt] at hty; simp at hty
    | bool x => rw [hgt] at hty; simp at hty
    | num x => rw [hgt] at hty; simp at hty
    | arr x => rw [hgt] at hty; simp at hty
    | obj x => rw [hgt] at hty; simp at hty
  have hty' : ∀ b : String, b ≠ "inlineCard" → typeIs fs b = false := by
    intro b hb
    unfold typeIs
    rw [hcard]
    exact decide_eq_false (fun he => hb he.symm)
  constructor
  · intro hu
    rw [extract_adf_text]
    simp only [hne, Bool.false_eq_true, reduceIte,
      hty' "text" (by decide), hty' "paragraph" (by decide),
      hty' "heading" (by decide), hty' "bulletList" (by decide),
      hty' "orderedList" (by decide), hty' "listItem" (by decide),
      hty' "codeBlock" (by decide), hty, Bool.or_self, hattrs, hu]
    rfl
  · intro hu
    have hu' : afs.get "url" (.str "") = .str "" := by simp [JObj.get, hu]
    rw [extract_adf_text]
    simp only [hne, Bool.false_eq_true, reduceIte,
      hty' "text" (by decide), hty' "paragraph" (by decide),
      hty' "heading" (by decide), hty' "bulletList" (by decide),
      hty' "orderedList" (by decide), hty' "listItem" (by decide),
      hty' "codeBlock" (by decide), hty, Bool.or_self, hattrs, hu']
    rfl

/-- Witness for C3 at a concrete `inlineCard` carrying a URL. -/
theorem claim_C3_witness :
    extract_adf_text (.obj cardFields) = .ok ("[" ++ "https://x" ++ "] ") :=
  (claim_C3 cardFields cardAttrs "https://x" rfl rfl).1 rfl

/-- Claim C4, counterexample: the claim bounds Mode A by
`ceil(total / pageSize)` fetches for every source with a fixed total;
against `shortPageFetch` (fixed total 3, one issue per page) with page
size 2, the crawl is still running after `ceil(3 / 2) = 2` fetches. -/
theorem claim_C4_counterexample :
    crawlV2 shortPageFetch ((3 + 2 - 1) / 2) 0 0 = none := rfl

/-- Claim C4 (amended): in Mode A, for every source that reports a
fixed total and fills each page to `min pageSize (total - offset)`
issues, the crawl terminates within `max 1 (ceil(total / pageSize))`
page fetches (one fetch is always needed to learn the total); after
each page the offset increases by the number of issues returned, and
the loop terminates when the offset reaches the reported total or a
page returns zero issues. -/
theorem claim_C4 (fetch : Nat → Except Unit PageV2) (T ps : Nat) (hps : 1 ≤ ps)
    (hfetch : ∀ o, ∃ is, fetch o = .ok ⟨is, T⟩ ∧ is.length = min ps (T - o)) :
    (crawlV2 fetch (max 1 ((T + ps - 1) / ps)) 0 0).isSome = true := by
  have hdm := Nat.div_add_mod' (T + ps - 1) ps
  have hmlt : (T + ps - 1) % ps < ps := Nat.mod_lt _ (by omega)
  have hle : T ≤ max 1 ((T + ps - 1) / ps) * ps := by
    rcases le_or_lt 1 ((T + ps - 1) / ps) with h1 | h1
    · rw [Nat.max_eq_right h1]
      omega
    · have hq0 : (T + ps - 1) / ps = 0 := Nat.lt_one_iff.mp h1
      rw [hq0] at hdm ⊢
      rw [Nat.zero_mul] at hdm
      rw [Nat.max_eq_left (by omega : (0:Nat) ≤ 1), Nat.one_mul]
      omega
  have hmax : max 1 ((T + ps - 1) / ps) = (max 1 ((T + ps - 1) / ps) - 1) + 1 := by
    have := Nat.le_max_left 1 ((T + ps - 1) / ps)
    omega
  rw [hmax]
  refine crawlV2_fuel fetch T ps hps hfetch _ 0 0 ?_
  rw [← hmax]
  omega

/-- Witness for C4: a full-page source with total 3 and page size 2
finishes within `max 1 (ceil(3 / 2)) = 2` fetches. -/
theorem claim_C4_witness :
    (crawlV2 fullPageFetch (max 1 ((3 + 2 - 1) / 2)) 0 0).isSome = true :=
  claim_C4 fullPageFetch 3 2 (by decide)
    (fun o => ⟨List.replicate (min 2 (3 - o)) (.submitted (.status 200)), rfl, by simp⟩)

/-- Claim C5: in Mode B, upon a response whose `isLast` flag is true
the crawl terminates at that response regardless of any continuation
token; and upon a response with `isLast = false` and a missing (or
empty) token it also terminates, returning the accumulated count
normally rather than signalling an error. -/
theorem claim_C5 (fetch : Option String → Except Unit PageV3) (fuel : Nat)
    (tok : Option String) (c : Nat) (p : PageV3) (hf : fetch tok = .ok p) :
    (p.isLast.getD true = true →
      crawlV3 fetch (fuel + 1) tok c = some (processIssues p.issues c)) ∧
    (p.isLast.getD true = false → tokenTruthy p.nextPageToken = false →
      crawlV3 fetch (fuel + 1) tok c = some (processIssues p.issues c)) := by
  have hnil : p.issues.isEmpty = true → p.issues = [] := by
    intro he
    cases hi : p.issues with
    | nil => rfl
    | cons a l => rw [hi] at he; simp [List.isEmpty] at he
  constructor
  · intro hl
    rw [crawlV3, hf]
    by_cases he : p.issues.isEmpty
    · have := hnil he
      simp [he, this, processIssues]
    · simp [he, hl]
  · intro hl ht
    rw [crawlV3, hf]
    by_cases he : p.issues.isEmpty
    · have := hnil he
      simp [he, this, processIssues]
    · simp [he, hl, ht]

/-- Witness for C5: a first response flagged last while carrying a
token — the crawl stops after that single page. -/
theorem claim_C5_witness :
    crawlV3 lastPageFetch 1 none 0 = some (processIssues [.submitted (.status 200)] 0) :=
  (claim_C5 lastPageFetch 0 none 0
    ⟨[.submitted (.status 200)], some true, some "t2"⟩ rfl).1 rfl

/-- Claim C6: a page-fetch fault (network or parse error) stops the
crawl at that page — no further fetches happen regardless of the
remaining fuel — and `crawl` returns the count of issues successfully
indexed from the pages processed before the fault: a fault on page 3
returns the counts accumulated from pages 1 and 2 only. -/
theorem claim_C6 (fetch : Nat → Except Unit PageV2) (p1 p2 : PageV2) (k : Nat)
    (h1 : fetch 0 = .ok p1) (hne1 : p1.issues.isEmpty = false)
    (hc1 : p1.issues.length < p1.total)
    (h2 : fetch p1.issues.length = .ok p2) (hne2 : p2.issues.isEmpty = false)
    (hc2 : p1.issues.length + p2.issues.length < p2.total)
    (h3 : fetch (p1.issues.length + p2.issues.length) = .error ()) :
    crawlV2 fetch (k + 3) 0 0 = some (pageCount p1.issues + pageCount p2.issues) := by
  have hs1 := crawlV2_step_ok h1 hne1 (by simpa using hc1) (k + 2) 0
  rw [Nat.zero_add] at hs1
  rw [hs1]
  rw [crawlV2_step_ok h2 hne2 hc2 (k + 1) (processIssues p1.issues 0)]
  rw [crawlV2_step_err h3 k _]
  rw [processIssues_acc, processIssues_acc]
  simp

/-- Witness for C6: two pages of 2 and 1 issues (one rejected), then a
fault; the crawl returns 1 + 1. -/
theorem claim_C6_witness :
    crawlV2 threePageFetch (0 + 3) 0 0 = some 2 :=
  claim_C6 threePageFetch
    ⟨[.submitted (.status 200), .submitted (.status 500)], 10⟩
    ⟨[.submitted (.status 409)], 10⟩ 0
    rfl rfl (by decide) rfl rfl (by decide) rfl

/-- Claim C7: per-issue failures are isolated — `index_document`
treats 409 (already present) exactly like 200 (accepted), any other
status or an exception counts as failure; within a page a failed issue
contributes nothing while the issues before and after it are still
counted; and a page full of failures still advances the crawl to the
next page. -/
theorem claim_C7 (pre post : List IssueOutcome) (r : IssueOutcome)
    (hr : issueSuccess r = false) (code : Nat)
    (h200 : code ≠ 200) (h409 : code ≠ 409)
    (fetch : Nat → Except Unit PageV2) (p : PageV2) (o c fuel : Nat)
    (hf : fetch o = .ok p) (hne : p.issues.isEmpty = false)
    (hlt : o + p.issues.length < p.total) :
    index_document (.status 409) = true ∧
    index_document (.status 200) = true ∧
    index_document .exc = false ∧
    index_document (.status code) = false ∧
    processIssues (pre ++ r :: post) c = c + pageCount pre + pageCount post ∧
    crawlV2 fetch (fuel + 1) o c =
      crawlV2 fetch fuel (o + p.issues.length) (processIssues p.issues c) := by
  refine ⟨rfl, rfl, rfl, ?_, ?_, crawlV2_step_ok hf hne hlt fuel c⟩
  · simp [index_document, h200, h409]
  · rw [processIssues_append, processIssues]
    simp only [hr, Bool.false_eq_true, reduceIte]
    rw [processIssues_acc post, processIssues_acc pre]

/-- Witness for C7 at concrete outcomes: a rejected submission between
an accepted and an already-present one, on a page followed by more
pages. -/
theorem claim_C7_witness :
    index_document (.status 409) = true ∧
    index_document (.status 200) = true ∧
    index_document .exc = false ∧
    index_document (.status 400) = false ∧
    processIssues ([.submitted (.status 200)] ++ .submitted (.status 400) :: [.submitted (.status 409)]) 0 =
      0 + pageCount [.submitted (.status 200)] + pageCount [.submitted (.status 409)] ∧
    crawlV2 threePageFetch (5 + 1) 0 0 =
      crawlV2 threePageFetch 5
        (0 + ([IssueOutcome.submitted (.status 200), .submitted (.status 500)]).length)
        (processIssues [IssueOutcome.submitted (.status 200), .submitted (.status 500)] 0) :=
  claim_C7 [.submitted (.status 200)] [.submitted (.status 409)] (.submitted (.status 400)) rfl
    400 (by decide) (by decide)
    threePageFetch ⟨[.submitted (.status 200), .submitted (.status 500)], 10⟩ 0 0 5
    rfl rfl (by decide)

/-- Claim C8: whenever the mapping completes, the Comments section is
built from exactly the comments whose decoded bodies are non-blank
after stripping, in source order, each rendered as
`"<author>: <stripped decoded body>"`; if none survive (in particular
when the issue has no comments) the text is exactly `"No comments"`. -/
theorem claim_C8 (b : String) (issue : Json) (doc : Document) (cs : JList)
    (hok : processIssue b issue = .ok doc)
    (hcs : issueCommentsVal issue = .arr cs) :
    sectionAt (processIssue b issue) 1 =
      some ⟨"Comments",
        if (keptComments cs).isEmpty then "No comments"
        else pyJoin "\n\n" ((keptComments cs).map renderComment)⟩ := by
  obtain ⟨ifs, ffs, d0, cfs, celems, lines, sfs, heq, hf2, hd, hc2, hpi, hcl, hsf, hsec⟩ :=
    processIssue_ok_inv hok
  subst heq
  have hval : issueCommentsVal (.obj ifs) = cfs.get "comments" (.arr .nil) := by
    simp [issueCommentsVal, issueFieldsD, hf2, hc2]
  rw [hval] at hcs
  rw [hcs] at hpi
  have hce : celems = cs := by
    have h' : (Except.ok cs : Except String JList) = .ok celems := hpi
    injection h' with h''
    exact h''.symm
  subst hce
  have hlines := commentLines_eq celems lines hcl
  simp only [sectionAt, hok, hsec, List.get?]
  rw [hlines]
  cases hkc : keptComments celems with
  | nil => simp
  | cons x xs => simp [List.isEmpty]

/-- Witness for C8 at a concrete issue with no comments. -/
theorem claim_C8_witness :
    sectionAt (processIssue "https://j" wfSampleIssue) 1 =
      some ⟨"Comments", "No comments"⟩ :=
  claim_C8 "https://j" wfSampleIssue wfSampleDoc .nil rfl rfl

/-- Claim C9: whenever the mapping completes, the Description section
text is exactly `"Issue: <key>"` when the description is absent or its
decoded text is blank after stripping, and the decoded description
text otherwise. -/
theorem claim_C9 (b : String) (issue : Json) (doc : Document)
    (hok : processIssue b issue = .ok doc) :
    sectionAt (processIssue b issue) 0 =
      some ⟨"Description",
        if pyStrip (decodedDescription issue) = ""
        then "Issue: " ++ pyStr (issueKey issue)
        else decodedDescription issue⟩ := by
  obtain ⟨ifs, ffs, d0, cfs, celems, lines, sfs, heq, hf2, hd, hc2, hpi, hcl, hsf, hsec⟩ :=
    processIssue_ok_inv hok
  subst heq
  have hffs : issueFieldsD (.obj ifs) = ffs := by
    simp [issueFieldsD, hf2]
  have hdd : decodedDescription (.obj ifs) = d0 := by
    unfold decodedDescription issueDescription
    rw [hffs]
    by_cases htr : truthy (ffs.get "description" .null) = true
    · rw [if_pos htr]
      rw [if_pos htr] at hd
      rw [hd]
      rfl
    · rw [if_neg htr]
      rw [if_neg htr] at hd
      exact Except.ok.inj hd
  have hkey : issueKey (.obj ifs) = ifs.get "key" (.str "unknown") := rfl
  rw [hdd, hkey]
  simp only [sectionAt, hok, hsec, List.get?]

/-- Witness for C9 at a concrete issue with an absent description. -/
theorem claim_C9_witness :
    sectionAt (processIssue "https://j" wfSampleIssue) 0 =
      some ⟨"Description", "Issue: K"⟩ :=
  claim_C9 "https://j" wfSampleIssue wfSampleDoc rfl

/-- Claim C10: every document `_process_issue` completes contains
exactly three sections titled Description, Comments and Status, in
that order, each with non-empty text. -/
theorem claim_C10 (b : String) (issue : Json) (doc : Document)
    (hok : processIssue b issue = .ok doc) :
    doc.sections.map Section'.title = ["Description", "Comments", "Status"] ∧
    ∀ sec ∈ doc.sections, sec.text ≠ "" := by
  obtain ⟨ifs, ffs, d0, cfs, celems, lines, sfs, heq, hf2, hd, hc2, hpi, hcl, hsf, hsec⟩ :=
    processIssue_ok_inv hok
  refine ⟨by rw [hsec]; rfl, ?_⟩
  rw [hsec]
  intro sec hs
  simp only [List.mem_cons, List.not_mem_nil, or_false] at hs
  rcases hs with rfl | rfl | rfl
  · by_cases hb : pyStrip d0 = ""
    · show (if pyStrip d0 = "" then "Issue: " ++ pyStr (ifs.get "key" (.str "unknown")) else d0) ≠ ""
      rw [if_pos hb]
      exact prefix_ne (by decide) _
    · show (if pyStrip d0 = "" then "Issue: " ++ pyStr (ifs.get "key" (.str "unknown")) else d0) ≠ ""
      rw [if_neg hb]
      intro h0
      exact hb (by rw [h0]; rfl)
  · show (if lines = [] then "No comments" else pyJoin "\n\n" lines) ≠ ""
    cases hl : lines with
    | nil => decide
    | cons l rest =>
      have hlne : l ≠ "" :=
        commentLines_ne_empty hcl l (by rw [hl]; exact List.mem_cons_self _ _)
      simp only [reduceCtorEq, reduceIte]
      exact pyJoin_cons_ne _ l rest hlne
  · show ("Issue " ++ pyStr (ffs.get "summary" (ifs.get "key" (.str "unknown"))) ++ " is " ++
      pyStr (sfs.get "name" (.str "Unknown"))) ≠ ""
    apply prefix_ne
    rw [String.length_append, String.length_append]
    have h6 : (0:Nat) < ("Issue ").length := by decide
    omega

/-- Witness for C10 at a concrete issue and its produced document. -/
theorem claim_C10_witness :
    wfSampleDoc.sections.map Section'.title = ["Description", "Comments", "Status"] ∧
    (Section'.mk "Description" "Issue: K").text ≠ "" :=
  ⟨(claim_C10 "https://j" wfSampleIssue wfSampleDoc rfl).1,
   (claim_C10 "https://j" wfSampleIssue wfSampleDoc rfl).2 ⟨"Description", "Issue: K"⟩
     (by decide)⟩

end JiraIngest
